import Mathlib

/-!
# Verification of the dirtygit branch-selector controller

A shallow embedding of `src/main.py`: the branch-listing query
(`list_branches`), the interaction state machine of `BranchSelectorUI`
(key handlers registered in `_register_keys`), the refresh logic
(`_refresh_branches`), and the supervised-process completion logic
(`_run_git` / `_run_git_async` / `_send_to_proc` / `_start_force_prompt` /
`_after_switch`).

External subprocess calls are modelled by passing their observable
results (exit code, captured output, streamed lines) as explicit
parameters; spawned child processes are recorded in a system-level list
so that liveness properties ("at most one active process") can be stated.
-/

namespace DirtyGit

/-! ## String helpers mirroring the Python primitives used by the source -/

/-- Python `str.strip()` on the characters the source strips (whitespace). -/
def pyStrip (s : String) : String :=
  ⟨((s.data.dropWhile Char.isWhitespace).reverse.dropWhile Char.isWhitespace).reverse⟩

/-- Python `line.rstrip("\n")`: drop trailing newline characters. -/
def rstripNl (s : String) : String :=
  ⟨((s.data.reverse.dropWhile (fun c => c = '\n')).reverse)⟩

/-- Split a character list at newline characters. -/
def splitNlAux : List Char → List (List Char)
  | [] => [[]]
  | c :: cs =>
    let r := splitNlAux cs
    if c = '\n' then [] :: r
    else
      match r with
      | [] => [[c]]
      | h :: t => (c :: h) :: t

/-- Python `str.splitlines()` restricted to `\n` separators (the source
strips each line afterwards, so other line-boundary characters are
absorbed by `pyStrip`).  A possible trailing empty segment is skipped by
the blank-line filter of the caller, matching Python `splitlines`. -/
def splitNl (s : String) : List String :=
  (splitNlAux s.data).map String.mk

/-- Python truthiness of a string: non-empty. -/
def pyTruthy (s : String) : Bool := s ≠ ""

/-- `' '.join(args)` -/
def joinSpace : List String → String
  | [] => ""
  | [a] => a
  | a :: rest => a ++ " " ++ joinSpace rest

/-! ## Branch data model and `list_branches` -/

/-- `Branch = Tuple[str, bool]  # (branch name, is_current)` -/
abbrev Branch := String × Bool

/-- Result of one `run_git_output` call: `(returncode, stdout)` with
stderr merged into stdout. -/
abbrev GitResult := Int × String

/-- The parse loop of `list_branches` (src/main.py lines 47-53): one
branch per line of the enumeration output, stripped, blank lines
skipped, `is_current` set by comparison with `current`. -/
def branchLoop (current : String) (output : String) : List Branch :=
  (splitNl output).filterMap fun line =>
    let name := pyStrip line
    if name = "" then none else some (name, name = current)

/-- `list_branches(repo_path)` from `src/main.py`, with the two external
queries (`git rev-parse --abbrev-ref HEAD` and
`git for-each-ref refs/heads --format=%(refname:short)`) supplied as
explicit results.  `raise RuntimeError(output)` is modelled as
`Except.error output`. -/
def list_branches (curQuery enumQuery : GitResult) : Except String (List Branch) :=
  let current := if curQuery.1 = 0 then pyStrip curQuery.2 else ""
  if enumQuery.1 ≠ 0 then
    .error enumQuery.2
  else
    .ok (branchLoop current enumQuery.2)

/-- The names parsed from an enumeration output: one per non-blank
stripped line, in order. -/
def parsedNames (out : String) : List String :=
  (splitNl out).filterMap fun line =>
    let name := pyStrip line
    if name = "" then none else some name

/-! ## Interaction state machine of `BranchSelectorUI`

The mutable fields of the Python object become a `UIState`; spawned
child processes are recorded in `Sys.procs` (the OS-level view), with
`UIState.proc` holding the index stored in `self.proc`.  The `on_success`
and `on_failure` closures passed to `_run_git` are first-order at the
three call sites, so they are embedded as tags. -/

/-- The `on_success` continuations passed to `_run_git` at its call
sites: `event.app.exit`, `self._after_switch`, `self._refresh_branches`. -/
inductive SuccessCont where
  | appExit
  | afterSwitch
  | refreshBranches
deriving Repr, DecidableEq

/-- The only `on_failure` continuation: `lambda: self._start_force_prompt(branch)`. -/
inductive FailureCont where
  | forcePrompt (branch : String)
deriving Repr, DecidableEq

/-- One spawned child process: its argument vector, the continuations the
supervising coroutine was given, whether its exit code has been observed
(`code = await proc.wait()` returned), whether its stdin pipe is open, and
the payloads written to its stdin. -/
structure ProcRec where
  args : List String
  onSuccess : Option SuccessCont
  onFailure : Option FailureCont
  refresh : Bool
  exited : Bool
  stdinOpen : Bool
  writes : List String
deriving Repr, DecidableEq

/-- The mutable state of `BranchSelectorUI` (plus `quit_on_switch`, set at
construction).  `log` is the list of lines appended to the log area;
`input_text` is the text of the input area; `input_focused` records which
window `self.app.layout` focuses; `exited` records `app.exit()`. -/
structure UIState where
  quit_on_switch : Bool
  branches : List Branch
  selected : Nat
  processing : Bool
  proc : Option Nat
  status : String
  awaiting_force_branch : Option String
  log : List String
  input_text : String
  input_focused : Bool
  exited : Bool
deriving Repr, DecidableEq

/-- The whole system: the UI object plus every child process spawned so
far (index = spawn order). -/
structure Sys where
  ui : UIState
  procs : List ProcRec
deriving Repr, DecidableEq

/-- `_append_log` / `_append_log_sync`: append one line to the log area
(the durable-file mirror is outside the model). -/
def appendLog (ui : UIState) (line : String) : UIState :=
  { ui with log := ui.log ++ [line] }

/-- Environment for refresh calls: the `n`-th call to `list_branches`
made during one completion returns `env n`. -/
abbrev RefreshEnv := Nat → Except String (List Branch)

/-- `_refresh_branches` with the outcome of its `list_branches` call
supplied.  `old_name` is read before the try-block; on an exception the
list and selection are untouched and an `[error]` line is logged; on
success the selection is reset to 0 and then moved to the first index
whose name equals `old_name`.  (In every reachable state
`selected < branches.length` whenever `branches` is non-empty, so the
`getD` default is never consulted.) -/
def refresh_branches (ui : UIState) (outcome : Except String (List Branch)) : UIState :=
  let old_name : Option String :=
    if ui.branches.isEmpty then none
    else some ((ui.branches.getD ui.selected ("", false)).1)
  match outcome with
  | .error exc => appendLog ui ("[error] " ++ exc)
  | .ok bs =>
    let ui' := { ui with branches := bs, selected := 0 }
    match old_name with
    | none => ui'
    | some nm =>
      if pyTruthy nm then
        match bs.findIdx? (fun b => b.1 = nm) with
        | some idx => { ui' with selected := idx }
        | none => ui'
      else ui'

/-- The tail of `_run_git_async` after `code = await proc.wait()`:
clear the processing flag and the handle, then branch on the exit code,
running the refresh flag and the continuations; finally focus the list
window again. -/
def complete_ui (onSuccess : Option SuccessCont) (onFailure : Option FailureCont)
    (refresh : Bool) (code : Int) (env : RefreshEnv) (ui : UIState) : UIState :=
  let ui := { ui with processing := false, proc := none }
  let ui :=
    if code = 0 then
      let p := if refresh then (refresh_branches ui (env 0), 1) else (ui, 0)
      match onSuccess with
      | some .appExit => { p.1 with exited := true }
      | some .afterSwitch =>
        let u := refresh_branches p.1 (env p.2)
        { u with status := "Switched. ↑/↓ to move • Enter to switch • Delete to delete" }
      | some .refreshBranches => refresh_branches p.1 (env p.2)
      | none =>
        { p.1 with status := "Done. ↑/↓ to move • Enter to switch • Delete to delete" }
    else
      let u := { ui with status := "Git exited with code " ++ toString code ++ ". See output." }
      match onFailure with
      | some (.forcePrompt branch) =>
        { u with awaiting_force_branch := some branch,
                 status := "Delete failed. FORCE delete " ++ branch ++ "? y/N" }
      | none => u
  { ui with input_focused := false }

/-- `_run_git`: set the processing flag and status, log the command line,
focus the input area, and spawn the supervised child (the background
task's first action, `create_subprocess_exec` + `self.proc = proc`,
recorded here at spawn time). -/
def run_git (sys : Sys) (args : List String) (onSuccess : Option SuccessCont)
    (onFailure : Option FailureCont) (refresh : Bool) : Sys :=
  let ui := sys.ui
  let ui := { ui with processing := true, status := "Running: " ++ joinSpace args }
  let ui := appendLog ui ("$ " ++ joinSpace args)
  let ui := { ui with input_focused := true, proc := some sys.procs.length }
  { ui := ui,
    procs := sys.procs ++ [{ args := args, onSuccess := onSuccess,
                             onFailure := onFailure, refresh := refresh,
                             exited := false, stdinOpen := true, writes := [] }] }

/-- Cursor movement for up / `k` (src/main.py lines 169-174):
`self.selected = (self.selected - 1) % len(self.branches)` guarded by
`if not self.branches: return`.  Python `%` with a positive modulus
agrees with `Int.emod`. -/
def move_up (ui : UIState) : UIState :=
  if ui.branches.isEmpty then ui
  else { ui with selected := ((((ui.selected : Int) - 1) % (ui.branches.length : Int))).toNat }

/-- Cursor movement for down / `j` (src/main.py lines 176-181). -/
def move_down (ui : UIState) : UIState :=
  if ui.branches.isEmpty then ui
  else { ui with selected := ((((ui.selected : Int) + 1) % (ui.branches.length : Int))).toNat }

/-- A printable key reaching the focused input `TextArea` inserts its
character. -/
def typeChar (ui : UIState) (c : Char) : UIState :=
  { ui with input_text := ui.input_text ++ c.toString }

/-- Enter in navigation mode (src/main.py lines 183-192): start
`git switch <branch>`; `on_success` is `app.exit` when `quit_on_switch`,
else `_after_switch`, and `refresh=not self.quit_on_switch`. -/
def enter_nav (sys : Sys) : Sys :=
  let ui := sys.ui
  if ui.processing || ui.branches.isEmpty then sys
  else
    let branch := (ui.branches.getD ui.selected ("", false)).1
    run_git sys ["git", "switch", branch]
      (some (if ui.quit_on_switch then .appExit else .afterSwitch))
      none
      (!ui.quit_on_switch)

/-- Delete in navigation mode (src/main.py lines 194-204): start
`git branch -d <branch>` with `on_success=_refresh_branches`,
`refresh=True`, `on_failure=lambda: _start_force_prompt(branch)`. -/
def delete_nav (sys : Sys) : Sys :=
  let ui := sys.ui
  if ui.processing || ui.branches.isEmpty then sys
  else
    let branch := (ui.branches.getD ui.selected ("", false)).1
    run_git sys ["git", "branch", "-d", branch]
      (some .refreshBranches) (some (.forcePrompt branch)) true

/-- `_send_to_proc` (src/main.py lines 350-358): re-check the guard at
task-run time, then write `text + "\n"` to the child's stdin; drain
errors are swallowed (no state effect). -/
def send_to_proc (sys : Sys) (text : String) : Sys :=
  if !sys.ui.processing then sys
  else
    match sys.ui.proc with
    | none => sys
    | some i =>
      match sys.procs[i]? with
      | none => sys
      | some p =>
        if !p.stdinOpen then sys
        else { sys with procs := sys.procs.set i { p with writes := p.writes ++ [text ++ "\n"] } }

/-- Enter while the input area is focused (src/main.py lines 206-213):
read and clear the input buffer; if no process is active or the handle is
cleared, stop; otherwise schedule `_send_to_proc(text)` and echo
`> text` to the log.  (The scheduled task runs when the handler returns;
it touches only the process record, so it is applied in-line here.) -/
def enter_input (sys : Sys) : Sys :=
  let text := sys.ui.input_text
  let sys := { sys with ui := { sys.ui with input_text := "" } }
  if !sys.ui.processing || sys.ui.proc.isNone then sys
  else
    let sys := send_to_proc sys text
    { sys with ui := appendLog sys.ui ("> " ++ text) }

/-- `y` under the force prompt (src/main.py lines 215-226): clear the
prompt flag, log, and start `git branch -D <branch>` with
`on_success=_refresh_branches`, `refresh=True`. -/
def key_y_force (sys : Sys) : Sys :=
  match sys.ui.awaiting_force_branch with
  | none => sys
  | some branch =>
    if !pyTruthy branch then sys
    else
      let sys := { sys with ui := { sys.ui with awaiting_force_branch := none } }
      let sys := { sys with ui := appendLog sys.ui ("Force deleting " ++ branch) }
      run_git sys ["git", "branch", "-D", branch] (some .refreshBranches) none true

/-- `n` / enter under the force prompt (src/main.py lines 228-237):
clear the prompt flag and restore the status text. -/
def cancel_force (sys : Sys) : Sys :=
  match sys.ui.awaiting_force_branch with
  | none => sys
  | some branch =>
    if !pyTruthy branch then sys
    else
      { sys with ui :=
        { sys.ui with
          awaiting_force_branch := none,
          status :=
            "Force delete canceled. ↑/↓ to move • Enter to switch • Delete to delete" } }

/-- The key events the registered bindings distinguish. -/
inductive Key where
  | ctrlC | escape | up | down | enter | delete
  | k | j | y | n
  | other (c : Char)
deriving Repr, DecidableEq

/-- Dispatch of one key event through the registered bindings.  Bindings
are tried per their filters; where several bindings for the same key are
enabled at once, the one registered last wins (prompt-toolkit semantics),
so the force-prompt enter binding shadows both other enter bindings, and
application-level bindings shadow the input area's self-insert.  Keys with
no enabled binding fall through to the focused widget: the input
`TextArea` inserts printable characters, the list window does nothing. -/
def handle_key (sys : Sys) (key : Key) : Sys :=
  let ui := sys.ui
  let forcePrompt := ui.awaiting_force_branch.isSome
  match key with
  | .ctrlC => { sys with ui := { ui with exited := true } }
  | .escape => { sys with ui := { ui with exited := true } }
  | .up => if ui.input_focused then sys else { sys with ui := move_up ui }
  | .k => if ui.input_focused then { sys with ui := typeChar ui 'k' }
          else { sys with ui := move_up ui }
  | .down => if ui.input_focused then sys else { sys with ui := move_down ui }
  | .j => if ui.input_focused then { sys with ui := typeChar ui 'j' }
          else { sys with ui := move_down ui }
  | .enter =>
    if forcePrompt then cancel_force sys
    else if ui.input_focused then enter_input sys
    else enter_nav sys
  | .delete => if ui.input_focused then sys else delete_nav sys
  | .y =>
    if forcePrompt then key_y_force sys
    else if ui.input_focused then { sys with ui := typeChar ui 'y' }
    else sys
  | .n =>
    if forcePrompt then cancel_force sys
    else if ui.input_focused then { sys with ui := typeChar ui 'n' }
    else sys
  | .other c => if ui.input_focused then { sys with ui := typeChar ui c } else sys

/-- One streamed output line of child `i` arriving at the supervising
coroutine's `readline` loop (src/main.py lines 313-320): append the
`rstrip`-ed line to the log. -/
def proc_line (sys : Sys) (i : Nat) (line : String) : Sys :=
  match sys.procs[i]? with
  | none => sys
  | some p =>
    if p.exited then sys
    else { sys with ui := appendLog sys.ui (rstripNl line) }

/-- Child `i` reaches end-of-stream and `await proc.wait()` returns
`code`: run the completion tail of `_run_git_async`. -/
def proc_exit (sys : Sys) (i : Nat) (code : Int) (env : RefreshEnv) : Sys :=
  match sys.procs[i]? with
  | none => sys
  | some p =>
    if p.exited then sys
    else
      let sys := { sys with procs := sys.procs.set i { p with exited := true } }
      { sys with ui := complete_ui p.onSuccess p.onFailure p.refresh code env sys.ui }

/-- The events the single-threaded event loop interleaves. -/
inductive Event where
  | key (ky : Key)
  | procLine (i : Nat) (line : String)
  | procExit (i : Nat) (code : Int) (env : RefreshEnv)

/-- One scheduler step.  After `app.exit()` the application run loop has
ended and no further handler runs. -/
def step (sys : Sys) (e : Event) : Sys :=
  if sys.ui.exited then sys
  else
    match e with
    | .key ky => handle_key sys ky
    | .procLine i line => proc_line sys i line
    | .procExit i code env => proc_exit sys i code env

/-- Run a sequence of events. -/
def run (sys : Sys) : List Event → Sys
  | [] => sys
  | e :: es => run (step sys e) es

/-- The state right after `BranchSelectorUI.__init__` (with the startup
`list_branches` result supplied): focus on the list window, nothing
processing, no prompt, empty log. -/
def initSys (branches : List Branch) (quit_on_switch : Bool) : Sys :=
  { ui := { quit_on_switch := quit_on_switch,
            branches := branches,
            selected := 0,
            processing := false,
            proc := none,
            status := "↑/↓ to move • Enter to switch • Delete to delete • Ctrl-C/Esc to quit",
            awaiting_force_branch := none,
            log := [],
            input_text := "",
            input_focused := false,
            exited := false },
    procs := [] }

/-- Reachability from a given start configuration. -/
def Reachable (branches : List Branch) (qos : Bool) (sys : Sys) : Prop :=
  ∃ es : List Event, run (initSys branches qos) es = sys

/-- Number of child processes that have been started and whose exit code
has not yet been observed. -/
def activeProcCount (sys : Sys) : Nat :=
  (sys.procs.filter (fun p => !p.exited)).length

/-- The body of `_run_git_async` viewed as one sequential coroutine
(src/main.py lines 296-342): first the `readline` loop appends every
output line (rstrip-ed) to the log until end-of-stream, and only then
does `await proc.wait()` return and the completion tail run.  `outLines`
is the child's output split at the pipe's line boundaries, in production
order. -/
def run_git_async (onSuccess : Option SuccessCont) (onFailure : Option FailureCont)
    (refresh : Bool) (ui : UIState) (outLines : List String) (code : Int)
    (env : RefreshEnv) : UIState :=
  match outLines with
  | [] => complete_ui onSuccess onFailure refresh code env ui
  | line :: rest =>
    run_git_async onSuccess onFailure refresh (appendLog ui (rstripNl line)) rest code env

/-- The state of the log area after the `readline` loop alone. -/
def stream_lines (ui : UIState) (outLines : List String) : UIState :=
  outLines.foldl (fun u line => appendLog u (rstripNl line)) ui

/-! ## Helper lemmas -/

theorem branchLoop_map_fst (current output : String) :
    (branchLoop current output).map Prod.fst = parsedNames output := by
  simp only [branchLoop, parsedNames, List.map_filterMap]
  congr 1
  funext line
  by_cases h : pyStrip line = "" <;> simp [h]

theorem mem_branchLoop (current output : String) (b : Branch)
    (hb : b ∈ branchLoop current output) :
    b.1 ≠ "" ∧ b.2 = decide (b.1 = current) := by
  simp only [branchLoop, List.mem_filterMap] at hb
  obtain ⟨line, -, h⟩ := hb
  rcases b with ⟨nm, cur⟩
  by_cases hs : pyStrip line = ""
  · rw [if_pos hs] at h
    cases h
  · rw [if_neg hs] at h
    injection h with h
    injection h with h1 h2
    subst h1
    subst h2
    exact ⟨hs, rfl⟩

theorem filter_current_length_le_one (l : List Branch) (c : String)
    (hnd : (l.map Prod.fst).Nodup) (hc : ∀ b ∈ l, b.2 = true → b.1 = c) :
    (l.filter (fun b => b.2)).length ≤ 1 := by
  induction l with
  | nil => simp
  | cons b t ih =>
    simp only [List.map_cons, List.nodup_cons] at hnd
    by_cases hb : b.2 = true
    · have hbc := hc b (List.mem_cons_self b t) hb
      have ht : t.filter (fun x => x.2) = [] := by
        rw [List.filter_eq_nil_iff]
        intro x hx hpx
        have hxc := hc x (List.mem_cons_of_mem _ hx) hpx
        exact hnd.1 (by
          rw [List.mem_map]
          exact ⟨x, hx, by rw [hxc, hbc]⟩)
      simp [List.filter_cons, hb, ht]
    · have hb' : b.2 = false := by
        cases h2 : b.2
        · rfl
        · exact absurd h2 hb
      simp only [List.filter_cons, hb', cond_false]
      exact ih hnd.2 (fun x hx px => hc x (List.mem_cons_of_mem _ hx) px)

/-! ## Claim C6 -/

/-- C6: if the current-branch query returns non-zero the listing still
succeeds (given a successful enumeration) with no branch marked current;
if the enumeration query returns non-zero the whole operation fails with
the query's raw output; otherwise the result has one branch per non-blank
stripped line of the enumeration output, marked current exactly when its
name equals the (stripped) current-branch query result. -/
theorem C6_listing_queries (cq eq : GitResult) :
    (eq.1 ≠ 0 → list_branches cq eq = .error eq.2) ∧
    (eq.1 = 0 → ∃ bs, list_branches cq eq = .ok bs ∧
      bs.map Prod.fst = parsedNames eq.2 ∧
      (∀ b ∈ bs, b.2 = true ↔ b.1 = (if cq.1 = 0 then pyStrip cq.2 else "")) ∧
      (cq.1 ≠ 0 → ∀ b ∈ bs, b.2 = false)) := by
  constructor
  · intro h
    simp [list_branches, h]
  · intro h
    refine ⟨branchLoop (if cq.1 = 0 then pyStrip cq.2 else "") eq.2,
      by simp [list_branches, h], branchLoop_map_fst _ _, ?_, ?_⟩
    · intro b hb
      rw [(mem_branchLoop _ _ b hb).2]
      exact decide_eq_true_iff
    · intro hcq b hb
      obtain ⟨hne, heq⟩ := mem_branchLoop _ _ b hb
      rw [heq, if_neg hcq]
      simp [hne]

theorem C6_listing_queries_witness :
    list_branches (0, "main\n") (1, "boom") = .error "boom" ∧
    (∃ bs, list_branches (1, "oops") (0, "main\ndev\n") = .ok bs ∧
      bs.map Prod.fst = parsedNames "main\ndev\n" ∧
      (∀ b ∈ bs, b.2 = true ↔ b.1 = (if (1 : Int) = 0 then pyStrip "oops" else "")) ∧
      (∀ b ∈ bs, b.2 = false)) := by
  constructor
  · exact (C6_listing_queries (0, "main\n") (1, "boom")).1 (by decide)
  · obtain ⟨bs, h1, h2, h3, h4⟩ := (C6_listing_queries (1, "oops") (0, "main\ndev\n")).2 rfl
    exact ⟨bs, h1, h2, h3, h4 (by decide)⟩

/-! ## Claim C9 -/

/-- C9 counterexample: with current-branch output `a` and an enumeration
output repeating the name `a`, the listing succeeds with two branches
both named `a` and both marked current, so neither uniqueness of names
nor "at most one is_current" holds over every pair of query outputs. -/
theorem C9_current_unique_cex :
    list_branches (0, "a\n") (0, "a\na\n") = .ok [("a", true), ("a", true)] ∧
    ¬ (([("a", true), ("a", true)] : List Branch).map Prod.fst).Nodup ∧
    (([("a", true), ("a", true)] : List Branch).filter (fun b => b.2)).length = 2 := by
  refine ⟨by rfl, by decide, by rfl⟩

/-- C9 (amended): for every branch list produced by the listing
operation, if the non-blank stripped lines of the enumeration output are
pairwise distinct, then branch names within the list are unique and at
most one branch has is_current = true. -/
theorem C9_current_unique (cq eq : GitResult) (bs : List Branch)
    (hok : list_branches cq eq = .ok bs) (hnd : (parsedNames eq.2).Nodup) :
    (bs.map Prod.fst).Nodup ∧ (bs.filter (fun b => b.2)).length ≤ 1 := by
  have hbs : bs = branchLoop (if cq.1 = 0 then pyStrip cq.2 else "") eq.2 := by
    by_cases h : eq.1 = 0
    · simp [list_branches, h] at hok
      exact hok.symm
    · simp [list_branches, h] at hok
  subst hbs
  refine ⟨?_, ?_⟩
  · rw [branchLoop_map_fst]
    exact hnd
  · exact filter_current_length_le_one _ _ (by rw [branchLoop_map_fst]; exact hnd)
      (fun b hb h2 => by
        have := (mem_branchLoop _ _ b hb).2
        rw [h2] at this
        exact (decide_eq_true_iff.mp this.symm))

theorem C9_current_unique_witness :
    list_branches (0, "main\n") (0, "main\ndev\n") = .ok [("main", true), ("dev", false)] ∧
    (parsedNames "main\ndev\n").Nodup ∧
    ((([("main", true), ("dev", false)] : List Branch).map Prod.fst).Nodup ∧
      (([("main", true), ("dev", false)] : List Branch).filter (fun b => b.2)).length ≤ 1) := by
  refine ⟨by rfl, by decide,
    C9_current_unique (0, "main\n") (0, "main\ndev\n") _ (by rfl) (by decide)⟩

theorem emod_neg_one (n : Nat) (h : n ≠ 0) : ((-1 : Int)) % (n : Int) = (n : Int) - 1 := by
  have h1 : ((-1 : Int)) = ((n : Int) - 1) + (n : Int) * (-1) := by ring
  rw [h1, Int.add_mul_emod_self_left]
  apply Int.emod_eq_of_lt <;> omega

theorem emod_toNat_lt (x : Int) (n : Nat) (h : n ≠ 0) : (x % (n : Int)).toNat < n := by
  have h1 : (0 : Int) ≤ x % (n : Int) := Int.emod_nonneg x (by exact_mod_cast h)
  have h2 : x % (n : Int) < (n : Int) := Int.emod_lt_of_pos x (by omega)
  omega

/-! ## Claim C8 -/

/-- C8: with a non-empty N-branch list and the list window focused,
moving up from index 0 selects N-1 and moving down from N-1 selects 0;
movement keeps the selection inside `[0, N-1]`; with an empty list the
selection-dependent keys up, down, enter and delete are all no-ops. -/
theorem C8_selection_wrap (sys : Sys)
    (hfoc : sys.ui.input_focused = false)
    (hexit : sys.ui.exited = false) :
    (sys.ui.branches ≠ [] → sys.ui.selected = 0 →
       (step sys (.key .up)).ui.selected = sys.ui.branches.length - 1) ∧
    (sys.ui.branches ≠ [] → sys.ui.selected = sys.ui.branches.length - 1 →
       (step sys (.key .down)).ui.selected = 0) ∧
    (sys.ui.branches ≠ [] → sys.ui.selected < sys.ui.branches.length →
       (step sys (.key .up)).ui.selected < sys.ui.branches.length ∧
       (step sys (.key .down)).ui.selected < sys.ui.branches.length) ∧
    (sys.ui.branches = [] → sys.ui.awaiting_force_branch = none →
       step sys (.key .up) = sys ∧ step sys (.key .down) = sys ∧
       step sys (.key .enter) = sys ∧ step sys (.key .delete) = sys) := by
  refine ⟨?_, ?_, ?_, ?_⟩
  · intro hne h0
    have hlen : sys.ui.branches.length ≠ 0 := by
      simpa [List.length_eq_zero] using hne
    simp only [step, hexit, Bool.false_eq_true, if_false, handle_key, hfoc, move_up,
      List.isEmpty_iff, hne, if_false, h0]
    rw [show ((0 : Nat) : Int) - 1 = -1 by ring, emod_neg_one _ hlen]
    omega
  · intro hne h0
    have hlen : sys.ui.branches.length ≠ 0 := by
      simpa [List.length_eq_zero] using hne
    simp only [step, hexit, Bool.false_eq_true, if_false, handle_key, hfoc, move_down,
      List.isEmpty_iff, hne, if_false, h0]
    rw [show ((sys.ui.branches.length - 1 : Nat) : Int) + 1 = (sys.ui.branches.length : Int) by omega,
      Int.emod_self]
    rfl
  · intro hne hsel
    have hlen : sys.ui.branches.length ≠ 0 := by
      simpa [List.length_eq_zero] using hne
    constructor
    · simp only [step, hexit, Bool.false_eq_true, if_false, handle_key, hfoc, move_up,
        List.isEmpty_iff, hne, if_false]
      exact emod_toNat_lt _ _ hlen
    · simp only [step, hexit, Bool.false_eq_true, if_false, handle_key, hfoc, move_down,
        List.isEmpty_iff, hne, if_false]
      exact emod_toNat_lt _ _ hlen
  · intro hemp hforce
    refine ⟨?_, ?_, ?_, ?_⟩
    · simp [step, hexit, handle_key, hfoc, move_up, hemp]
    · simp [step, hexit, handle_key, hfoc, move_down, hemp]
    · simp [step, hexit, handle_key, hfoc, hforce, enter_nav, hemp]
    · simp [step, hexit, handle_key, hfoc, delete_nav, hemp]

theorem C8_selection_wrap_witness :
    ((initSys [("a", true), ("b", false)] false).ui.input_focused = false ∧
     (initSys [("a", true), ("b", false)] false).ui.exited = false) ∧
    (step (initSys [("a", true), ("b", false)] false) (.key .up)).ui.selected = 1 ∧
    step (initSys [] false) (.key .enter) = initSys [] false := by
  refine ⟨⟨rfl, rfl⟩, ?_, ?_⟩
  · have h := C8_selection_wrap (initSys [("a", true), ("b", false)] false) rfl rfl
    simpa using h.1 (by decide) rfl
  · have h := C8_selection_wrap (initSys [] false) rfl rfl
    exact (h.2.2.2 rfl rfl).2.2.1

/-! ## Refresh projection lemmas -/

theorem refresh_branches_proj (ui : UIState) (o : Except String (List Branch)) :
    (refresh_branches ui o).status = ui.status ∧
    (refresh_branches ui o).processing = ui.processing ∧
    (refresh_branches ui o).proc = ui.proc ∧
    (refresh_branches ui o).awaiting_force_branch = ui.awaiting_force_branch ∧
    (refresh_branches ui o).exited = ui.exited ∧
    (refresh_branches ui o).input_focused = ui.input_focused ∧
    (refresh_branches ui o).input_text = ui.input_text ∧
    (refresh_branches ui o).quit_on_switch = ui.quit_on_switch := by
  unfold refresh_branches appendLog
  rcases o with e | bs
  · exact ⟨rfl, rfl, rfl, rfl, rfl, rfl, rfl, rfl⟩
  · dsimp only
    repeat' constructor
    all_goals repeat' split
    all_goals rfl

theorem refresh_branches_ok_branches (ui : UIState) (bs : List Branch) :
    (refresh_branches ui (.ok bs)).branches = bs ∧
    (refresh_branches ui (.ok bs)).log = ui.log := by
  unfold refresh_branches
  dsimp only
  constructor
  all_goals repeat' split
  all_goals rfl

theorem refresh_branches_error (ui : UIState) (e : String) :
    refresh_branches ui (.error e) = { ui with log := ui.log ++ ["[error] " ++ e] } := rfl

/-! ## Claim C4 -/

/-- C4: a refresh that fails leaves the branch list and the selection
unchanged, appends exactly one `[error]` line to the log, and (being a
total function of the outcome) never propagates the exception; a refresh
that succeeds installs the new list and sets the selection to the first
index carrying the previously selected branch name when that name
occurs, and to 0 otherwise. -/
theorem C4_refresh_selection (ui : UIState)
    (hsel : ui.selected < ui.branches.length)
    (hname : (ui.branches.getD ui.selected ("", false)).1 ≠ "") :
    (∀ e, refresh_branches ui (.error e) =
       { ui with log := ui.log ++ ["[error] " ++ e] }) ∧
    (∀ bs,
      (refresh_branches ui (.ok bs)).branches = bs ∧
      (refresh_branches ui (.ok bs)).log = ui.log ∧
      ((ui.branches.getD ui.selected ("", false)).1 ∈ bs.map Prod.fst →
        ∃ j, (refresh_branches ui (.ok bs)).selected = j ∧
          ∃ hj : j < bs.length,
            (bs.get ⟨j, hj⟩).1 = (ui.branches.getD ui.selected ("", false)).1 ∧
            ∀ i (hi : i < j),
              (bs.get ⟨i, Nat.lt_trans hi hj⟩).1 ≠ (ui.branches.getD ui.selected ("", false)).1) ∧
      ((ui.branches.getD ui.selected ("", false)).1 ∉ bs.map Prod.fst →
        (refresh_branches ui (.ok bs)).selected = 0)) := by
  have hne : ¬ (ui.branches.isEmpty = true) := by
    intro h
    rw [List.isEmpty_iff] at h
    rw [h] at hsel
    simp at hsel
  set nm := (ui.branches.getD ui.selected ("", false)).1 with hnm
  refine ⟨fun e => rfl, fun bs => ⟨(refresh_branches_ok_branches ui bs).1,
    (refresh_branches_ok_branches ui bs).2, ?_, ?_⟩⟩
  · intro hmem
    have hex : ∃ x, x ∈ bs ∧ (fun b => decide (b.1 = nm)) x = true := by
      rw [List.mem_map] at hmem
      obtain ⟨b, hb, hbeq⟩ := hmem
      exact ⟨b, hb, by simp [hbeq]⟩
    have hfind := List.findIdx?_eq_some_of_exists hex
    have hchar := List.findIdx?_eq_some_iff_getElem.mp hfind
    obtain ⟨hlt, hp, hmin⟩ := hchar
    refine ⟨bs.findIdx (fun b => decide (b.1 = nm)), ?_, hlt, ?_, ?_⟩
    · unfold refresh_branches
      dsimp only
      rw [if_neg hne]
      dsimp only
      have htr : pyTruthy nm = true := by
        simp [pyTruthy, hname]
      rw [if_pos htr]
      rw [hfind]
    · simpa using hp
    · intro i hi
      have := hmin i hi
      simpa using this
  · intro hmem
    have hnone : bs.findIdx? (fun b => decide (b.1 = nm)) = none := by
      rw [List.findIdx?_eq_none_iff]
      intro x hx
      simp only [decide_eq_false_iff_not]
      intro hxeq
      exact hmem (List.mem_map.mpr ⟨x, hx, hxeq⟩)
    unfold refresh_branches
    dsimp only
    rw [if_neg hne]
    dsimp only
    have htr : pyTruthy nm = true := by
      simp [pyTruthy, hname]
    rw [if_pos htr, hnone]

theorem C4_refresh_selection_witness :
    ((initSys [("main", true), ("dev", false)] false).ui.selected <
       (initSys [("main", true), ("dev", false)] false).ui.branches.length ∧
     ((initSys [("main", true), ("dev", false)] false).ui.branches.getD
       (initSys [("main", true), ("dev", false)] false).ui.selected ("", false)).1 ≠ "") ∧
    refresh_branches (initSys [("main", true), ("dev", false)] false).ui (.error "boom") =
      { (initSys [("main", true), ("dev", false)] false).ui with
        log := (initSys [("main", true), ("dev", false)] false).ui.log ++ ["[error] boom"] } ∧
    (refresh_branches (initSys [("main", true), ("dev", false)] false).ui
       (.ok [("x", false), ("main", false)])).selected = 1 ∧
    (refresh_branches (initSys [("main", true), ("dev", false)] false).ui
       (.ok [("x", false)])).selected = 0 := by
  have h := C4_refresh_selection (initSys [("main", true), ("dev", false)] false).ui
    (by decide) (by decide)
  refine ⟨⟨by decide, by decide⟩, h.1 "boom", ?_, ?_⟩
  · obtain ⟨j, hjsel, hlt, hget, hmin⟩ :=
      (h.2 [("x", false), ("main", false)]).2.2.1 (by decide)
    have hlt2 : j < 2 := by simpa using hlt
    interval_cases j
    · have hnm : ((initSys [("main", true), ("dev", false)] false).ui.branches.getD
          (initSys [("main", true), ("dev", false)] false).ui.selected ("", false)).1 = "main" := by
        decide
      rw [hnm] at hget
      simp at hget
    · exact hjsel
  · exact (h.2 [("x", false)]).2.2.2 (by decide)

/-! ## Claim C5 -/

theorem stream_lines_log (ui : UIState) (outLines : List String) :
    (stream_lines ui outLines).log = ui.log ++ outLines.map rstripNl := by
  induction outLines generalizing ui with
  | nil => simp [stream_lines]
  | cons l rest ih =>
    simp only [stream_lines, List.foldl_cons, List.map_cons] at *
    rw [ih]
    simp [appendLog, List.append_assoc]

theorem refresh_branches_log_eq (u : UIState) (o : Except String (List Branch)) :
    (refresh_branches u o).log =
      u.log ++ (match o with | .error e => ["[error] " ++ e] | .ok _ => []) := by
  rcases o with e | bs
  · rfl
  · rw [(refresh_branches_ok_branches u bs).2]
    simp

theorem complete_ui_log_extend (oS : Option SuccessCont)
    (oF : Option FailureCont) (r : Bool) (code : Int) (env : RefreshEnv)
    (ui : UIState) :
    ∃ rest, (complete_ui oS oF r code env ui).log = ui.log ++ rest := by
  unfold complete_ui
  by_cases hc : code = 0
  · rcases r with _ | _ <;> rcases oS with _ | (_ | _ | _) <;>
      simp only [hc, if_pos, Bool.false_eq_true, if_false, if_true]
    · exact ⟨[], by simp⟩
    · exact ⟨[], by simp⟩
    · exact ⟨(match env 0 with | .error e => ["[error] " ++ e] | .ok _ => []),
        by rw [refresh_branches_log_eq]⟩
    · exact ⟨(match env 0 with | .error e => ["[error] " ++ e] | .ok _ => []),
        by rw [refresh_branches_log_eq]⟩
    · exact ⟨(match env 0 with | .error e => ["[error] " ++ e] | .ok _ => []),
        by rw [refresh_branches_log_eq]⟩
    · exact ⟨(match env 0 with | .error e => ["[error] " ++ e] | .ok _ => []),
        by rw [refresh_branches_log_eq]⟩
    · exact ⟨(match env 0 with | .error e => ["[error] " ++ e] | .ok _ => []) ++
        (match env 1 with | .error e => ["[error] " ++ e] | .ok _ => []),
        by rw [refresh_branches_log_eq, refresh_branches_log_eq, List.append_assoc]⟩
    · exact ⟨(match env 0 with | .error e => ["[error] " ++ e] | .ok _ => []) ++
        (match env 1 with | .error e => ["[error] " ++ e] | .ok _ => []),
        by rw [refresh_branches_log_eq, refresh_branches_log_eq, List.append_assoc]⟩
  · rcases oF with _ | ⟨b⟩ <;>
      simp only [hc, if_neg, if_false] <;>
      exact ⟨[], by simp⟩

/-- C5: the supervising coroutine appends the child's output lines to the
log in exactly the order produced (the streamed log equals the old log
followed by the rstrip-ed lines in order), and every post-completion
action (clearing the handle and processing flag, refreshing, invoking
the continuation, updating the status) is computed from the state reached
only after end-of-stream, so the command's log segment is complete and a
prefix of the final log before those actions run. -/
theorem C5_stream_order_then_complete (oS : Option SuccessCont) (oF : Option FailureCont)
    (r : Bool) (ui : UIState) (outLines : List String) (code : Int) (env : RefreshEnv) :
    run_git_async oS oF r ui outLines code env =
      complete_ui oS oF r code env (stream_lines ui outLines) ∧
    (stream_lines ui outLines).log = ui.log ++ outLines.map rstripNl ∧
    ∃ rest, (run_git_async oS oF r ui outLines code env).log =
      (ui.log ++ outLines.map rstripNl) ++ rest := by
  have h1 : ∀ u, run_git_async oS oF r u outLines code env =
      complete_ui oS oF r code env (stream_lines u outLines) := by
    induction outLines with
    | nil => intro u; rfl
    | cons l rest ih =>
      intro u
      simp only [run_git_async, stream_lines, List.foldl_cons]
      exact ih _
  refine ⟨h1 ui, stream_lines_log ui outLines, ?_⟩
  rw [h1 ui]
  obtain ⟨rest, hr⟩ := complete_ui_log_extend oS oF r code env (stream_lines ui outLines)
  exact ⟨rest, by rw [hr, stream_lines_log]⟩

/-! ## Claim C1 -/

/-- C1: the claimed single-active-process invariant fails on the code.
The enter and delete handlers are guarded by the processing flag, but the
`y` handler of the force-delete prompt is guarded only by the prompt flag;
pressing delete while the prompt is showing starts a `git branch -d`
process without clearing the prompt flag, and pressing `y` while that
process is still running starts a second concurrent process: after the
trace delete, exit 1, delete, `y`, two spawned processes have unobserved
exit codes. -/
theorem C1_second_process_started_by_y :
    activeProcCount (run (initSys [("main", true)] false)
      [.key .delete, .procExit 0 1 (fun _ => .error ""),
       .key .delete, .key .y]) = 2 := by decide

/-! ## Claim C2 -/

/-- C2: when the supervised process exits non-zero, a delete-initiated
command shows the failure status "Delete failed. FORCE delete <branch>?
y/N" and enters the confirmation state carrying the targeted branch
name, while a switch-initiated command shows "Git exited with code
<code>. See output." and returns to Navigating with no escalation (no
prompt, not processing, list focus restored, branch list untouched). -/

theorem C2_nonzero_exit_outcomes (sys : Sys) (code : Int) (env : RefreshEnv)
    (hcode : code ≠ 0)
    (hexit : sys.ui.exited = false)
    (hproc : sys.ui.processing = false)
    (hfoc : sys.ui.input_focused = false)
    (hforce : sys.ui.awaiting_force_branch = none)
    (hne : sys.ui.branches.isEmpty = false) :
    ((step (step sys (.key .delete)) (.procExit sys.procs.length code env)).ui.awaiting_force_branch =
        some (sys.ui.branches.getD sys.ui.selected ("", false)).1 ∧
     (step (step sys (.key .delete)) (.procExit sys.procs.length code env)).ui.status =
        "Delete failed. FORCE delete " ++ (sys.ui.branches.getD sys.ui.selected ("", false)).1 ++ "? y/N" ∧
     (step (step sys (.key .delete)) (.procExit sys.procs.length code env)).ui.processing = false ∧
     (step (step sys (.key .delete)) (.procExit sys.procs.length code env)).ui.exited = false ∧
     (step (step sys (.key .delete)) (.procExit sys.procs.length code env)).ui.branches = sys.ui.branches) ∧
    ((step (step sys (.key .enter)) (.procExit sys.procs.length code env)).ui.status =
        "Git exited with code " ++ toString code ++ ". See output." ∧
     (step (step sys (.key .enter)) (.procExit sys.procs.length code env)).ui.awaiting_force_branch = none ∧
     (step (step sys (.key .enter)) (.procExit sys.procs.length code env)).ui.processing = false ∧
     (step (step sys (.key .enter)) (.procExit sys.procs.length code env)).ui.exited = false ∧
     (step (step sys (.key .enter)) (.procExit sys.procs.length code env)).ui.branches = sys.ui.branches ∧
     (step (step sys (.key .enter)) (.procExit sys.procs.length code env)).ui.input_focused = false) := by
  constructor
  · simp only [step, hexit, Bool.false_eq_true, if_false, handle_key, hfoc, delete_nav,
      hproc, hne, Bool.or_self, run_git, appendLog, proc_exit, List.getElem?_concat_length,
      complete_ui, hcode, if_false, hforce]
    simp [hcode]
  · simp only [step, hexit, Bool.false_eq_true, if_false, handle_key, hforce, Option.isSome_none,
      hfoc, enter_nav, hproc, hne, Bool.or_self, run_git, appendLog, proc_exit,
      List.getElem?_concat_length, complete_ui, hcode, if_false]
    simp [hcode]

theorem C2_nonzero_exit_outcomes_witness :
    ((1 : Int) ≠ 0 ∧ (initSys [("main", true)] false).ui.processing = false) ∧
    (step (step (initSys [("main", true)] false) (.key .delete))
       (.procExit 0 1 (fun _ => .error ""))).ui.awaiting_force_branch = some "main" ∧
    (step (step (initSys [("main", true)] false) (.key .delete))
       (.procExit 0 1 (fun _ => .error ""))).ui.status = "Delete failed. FORCE delete main? y/N" ∧
    (step (step (initSys [("main", true)] false) (.key .enter))
       (.procExit 0 1 (fun _ => .error ""))).ui.status = "Git exited with code 1. See output." ∧
    (step (step (initSys [("main", true)] false) (.key .enter))
       (.procExit 0 1 (fun _ => .error ""))).ui.awaiting_force_branch = none := by
  have h := C2_nonzero_exit_outcomes (initSys [("main", true)] false) 1 (fun _ => .error "")
    (by decide) rfl rfl rfl rfl rfl
  refine ⟨⟨by decide, rfl⟩, ?_, ?_, ?_, ?_⟩
  · exact h.1.1
  · exact h.1.2.1
  · exact h.2.1
  · exact h.2.2.1

/-! ## Claim C3 -/

/-- C3 counterexample: the claim says any key other than `y` cancels the
confirmation; but from the force prompt reached by a failed delete of
branch `a`, pressing the up key moves the cursor and leaves the prompt
(flag and status text) fully active, so "any other key cancels" is
false. -/
theorem C3_force_prompt_cex :
    (run (initSys [("a", true), ("b", false)] false)
       [.key .delete, .procExit 0 1 (fun _ => .error ""), .key .up]).ui.awaiting_force_branch =
      some "a" ∧
    (run (initSys [("a", true), ("b", false)] false)
       [.key .delete, .procExit 0 1 (fun _ => .error ""), .key .up]).ui.selected = 1 ∧
    (run (initSys [("a", true), ("b", false)] false)
       [.key .delete, .procExit 0 1 (fun _ => .error ""), .key .up]).ui.status =
      "Delete failed. FORCE delete a? y/N" := by
  refine ⟨by decide, by decide, by decide⟩

/-- C3 (amended): in the force-delete prompt for a (non-empty) branch
name, with the list window focused (as the controller always leaves it
when the prompt appears): `y` starts `git branch -D <branch>` and enters
Busy (processing set, prompt flag cleared, a new supervised process
spawned); `n` and enter cancel the prompt, restore the status text and
return to Navigating without starting anything; Ctrl-C and Esc still
quit; and no other key cancels the confirmation — the navigation keys
up/down/k/j apply the usual cursor movement with the prompt left active,
delete leaves the prompt flag set, and unbound printable keys change
nothing at all. -/
theorem C3_force_prompt_keys (sys : Sys) (b : String)
    (hforce : sys.ui.awaiting_force_branch = some b) (hb : b ≠ "")
    (hexit : sys.ui.exited = false)
    (hfoc : sys.ui.input_focused = false) :
    ((step sys (.key .y)).ui.processing = true ∧
     (step sys (.key .y)).ui.awaiting_force_branch = none ∧
     (step sys (.key .y)).procs = sys.procs ++
       [{ args := ["git", "branch", "-D", b], onSuccess := some .refreshBranches,
          onFailure := none, refresh := true, exited := false, stdinOpen := true,
          writes := [] }]) ∧
    ((step sys (.key .n)).ui.awaiting_force_branch = none ∧
     (step sys (.key .n)).ui.status =
       "Force delete canceled. ↑/↓ to move • Enter to switch • Delete to delete" ∧
     (step sys (.key .n)).procs = sys.procs ∧
     (step sys (.key .n)).ui.processing = sys.ui.processing) ∧
    step sys (.key .enter) = step sys (.key .n) ∧
    (∀ ky : Key, ky ≠ .y → ky ≠ .n → ky ≠ .enter → ky ≠ .ctrlC → ky ≠ .escape →
       (step sys (.key ky)).ui.awaiting_force_branch = some b) ∧
    step sys (.key .up) = { sys with ui := move_up sys.ui } ∧
    step sys (.key .down) = { sys with ui := move_down sys.ui } ∧
    step sys (.key .k) = { sys with ui := move_up sys.ui } ∧
    step sys (.key .j) = { sys with ui := move_down sys.ui } ∧
    (∀ c : Char, step sys (.key (.other c)) = sys) ∧
    (step sys (.key .ctrlC)).ui.exited = true ∧
    (step sys (.key .escape)).ui.exited = true := by
  have htr : pyTruthy b = true := by simp [pyTruthy, hb]
  have hup : (move_up sys.ui).awaiting_force_branch = sys.ui.awaiting_force_branch := by
    unfold move_up
    split <;> rfl
  have hdown : (move_down sys.ui).awaiting_force_branch = sys.ui.awaiting_force_branch := by
    unfold move_down
    split <;> rfl
  refine ⟨?_, ?_, ?_, ?_, ?_, ?_, ?_, ?_, ?_, ?_, ?_⟩
  · simp [step, hexit, handle_key, hforce, key_y_force, htr, appendLog, run_git]
  · simp [step, hexit, handle_key, hforce, cancel_force, htr]
  · simp only [step, hexit, Bool.false_eq_true, if_false, handle_key, hforce,
      Option.isSome_some, if_true]
  · intro ky h1 h2 h3 h4 h5
    cases ky
    · exact absurd rfl h4
    · exact absurd rfl h5
    · simp [step, hexit, handle_key, hfoc, hup, hforce]
    · simp [step, hexit, handle_key, hfoc, hdown, hforce]
    · exact absurd rfl h3
    · by_cases hg : (sys.ui.processing || sys.ui.branches.isEmpty) = true
      · simp [step, hexit, handle_key, hfoc, delete_nav, hg, hforce]
      · simp [step, hexit, handle_key, hfoc, delete_nav, hg, run_git, appendLog, hforce]
    · simp [step, hexit, handle_key, hfoc, hup, hforce]
    · simp [step, hexit, handle_key, hfoc, hdown, hforce]
    · exact absurd rfl h1
    · exact absurd rfl h2
    · simp [step, hexit, handle_key, hfoc, hforce]
  · simp [step, hexit, handle_key, hfoc]
  · simp [step, hexit, handle_key, hfoc]
  · simp [step, hexit, handle_key, hfoc]
  · simp [step, hexit, handle_key, hfoc]
  · intro c
    simp [step, hexit, handle_key, hfoc]
  · simp [step, hexit, handle_key]
  · simp [step, hexit, handle_key]

theorem C3_force_prompt_keys_witness :
    ((run (initSys [("a", true), ("b", false)] false)
        [.key .delete, .procExit 0 1 (fun _ => .error "")]).ui.awaiting_force_branch =
          some "a" ∧
     ("a" : String) ≠ "" ∧
     (run (initSys [("a", true), ("b", false)] false)
        [.key .delete, .procExit 0 1 (fun _ => .error "")]).ui.exited = false ∧
     (run (initSys [("a", true), ("b", false)] false)
        [.key .delete, .procExit 0 1 (fun _ => .error "")]).ui.input_focused = false) ∧
    (step (run (initSys [("a", true), ("b", false)] false)
        [.key .delete, .procExit 0 1 (fun _ => .error "")]) (.key .y)).ui.processing = true ∧
    (step (run (initSys [("a", true), ("b", false)] false)
        [.key .delete, .procExit 0 1 (fun _ => .error "")]) (.key .n)).ui.status =
      "Force delete canceled. ↑/↓ to move • Enter to switch • Delete to delete" ∧
    (step (run (initSys [("a", true), ("b", false)] false)
        [.key .delete, .procExit 0 1 (fun _ => .error "")])
        (.key .delete)).ui.awaiting_force_branch = some "a" ∧
    step (run (initSys [("a", true), ("b", false)] false)
        [.key .delete, .procExit 0 1 (fun _ => .error "")]) (.key (.other 'x')) =
      run (initSys [("a", true), ("b", false)] false)
        [.key .delete, .procExit 0 1 (fun _ => .error "")] := by
  have h := C3_force_prompt_keys
    (run (initSys [("a", true), ("b", false)] false)
      [.key .delete, .procExit 0 1 (fun _ => .error "")]) "a"
    (by decide) (by decide) (by decide) (by decide)
  obtain ⟨hy, hn, -, huniv, -, -, -, -, hoth, -, -⟩ := h
  exact ⟨⟨by decide, by decide, by decide, by decide⟩, hy.1, hn.2.1,
    huniv .delete (by decide) (by decide) (by decide) (by decide) (by decide),
    hoth 'x'⟩

/-! ## Claim C7 -/

theorem refresh_branches_branches_ok (u : UIState) (bs : List Branch) :
    (refresh_branches u (.ok bs)).branches = bs := (refresh_branches_ok_branches u bs).1

theorem refresh_branches_status (u : UIState) (o : Except String (List Branch)) :
    (refresh_branches u o).status = u.status := (refresh_branches_proj u o).1

theorem refresh_branches_processing (u : UIState) (o : Except String (List Branch)) :
    (refresh_branches u o).processing = u.processing := (refresh_branches_proj u o).2.1

theorem refresh_branches_awaiting (u : UIState) (o : Except String (List Branch)) :
    (refresh_branches u o).awaiting_force_branch = u.awaiting_force_branch :=
  (refresh_branches_proj u o).2.2.2.1

theorem refresh_branches_exited (u : UIState) (o : Except String (List Branch)) :
    (refresh_branches u o).exited = u.exited := (refresh_branches_proj u o).2.2.2.2.1

theorem refresh_branches_input_focused (u : UIState) (o : Except String (List Branch)) :
    (refresh_branches u o).input_focused = u.input_focused :=
  (refresh_branches_proj u o).2.2.2.2.2.1

/-- C7 counterexample: the claim says the branch list is refreshed and
then, with quit-on-switch configured, the application terminates; in the
code `refresh=not quit_on_switch`, so with quit-on-switch set no refresh
happens at all: even though the refresh environment would return
`[("b", true)]`, the application exits with the stale pre-switch list. -/
theorem C7_switch_success_cex :
    (run (initSys [("a", true), ("b", false)] true)
       [.key .down, .key .enter, .procExit 0 0 (fun _ => .ok [("b", true)])]).ui.exited = true ∧
    (run (initSys [("a", true), ("b", false)] true)
       [.key .down, .key .enter, .procExit 0 0 (fun _ => .ok [("b", true)])]).ui.branches =
      [("a", true), ("b", false)] ∧
    (run (initSys [("a", true), ("b", false)] true)
       [.key .down, .key .enter, .procExit 0 0 (fun _ => .ok [("b", true)])]).ui.branches ≠
      [("b", true)] := by
  refine ⟨by decide, by decide, by decide⟩

/-- C7 (amended): when a switch command exits 0, if quit-on-switch is
configured the application terminates immediately without refreshing the
branch list; otherwise the branch list is refreshed, the success status
"Switched. ..." is shown, and the controller returns to Navigating. -/
theorem C7_switch_success (sys : Sys) (env : RefreshEnv) (bs : List Branch)
    (hexit : sys.ui.exited = false)
    (hproc : sys.ui.processing = false)
    (hfoc : sys.ui.input_focused = false)
    (hforce : sys.ui.awaiting_force_branch = none)
    (hne : sys.ui.branches.isEmpty = false)
    (henv0 : env 0 = .ok bs) (henv1 : env 1 = .ok bs) :
    (sys.ui.quit_on_switch = true →
       (step (step sys (.key .enter)) (.procExit sys.procs.length 0 env)).ui.exited = true ∧
       (step (step sys (.key .enter)) (.procExit sys.procs.length 0 env)).ui.branches =
         sys.ui.branches) ∧
    (sys.ui.quit_on_switch = false →
       (step (step sys (.key .enter)) (.procExit sys.procs.length 0 env)).ui.branches = bs ∧
       (step (step sys (.key .enter)) (.procExit sys.procs.length 0 env)).ui.status =
         "Switched. ↑/↓ to move • Enter to switch • Delete to delete" ∧
       (step (step sys (.key .enter)) (.procExit sys.procs.length 0 env)).ui.exited = false ∧
       (step (step sys (.key .enter)) (.procExit sys.procs.length 0 env)).ui.processing = false ∧
       (step (step sys (.key .enter)) (.procExit sys.procs.length 0 env)).ui.awaiting_force_branch
         = none ∧
       (step (step sys (.key .enter)) (.procExit sys.procs.length 0 env)).ui.input_focused
         = false) := by
  constructor
  · intro hq
    simp [step, handle_key, enter_nav, run_git, proc_exit, complete_ui, appendLog,
      hexit, hproc, hfoc, hforce, hne, hq, List.getElem?_concat_length]
  · intro hq
    simp [step, handle_key, enter_nav, run_git, proc_exit, complete_ui, appendLog,
      hexit, hproc, hfoc, hforce, hne, hq, henv0, henv1, List.getElem?_concat_length,
      refresh_branches_branches_ok, refresh_branches_status, refresh_branches_processing,
      refresh_branches_awaiting, refresh_branches_exited, refresh_branches_input_focused]

theorem C7_switch_success_witness :
    ((initSys [("a", true)] true).ui.quit_on_switch = true ∧
     (step (step (initSys [("a", true)] true) (.key .enter))
        (.procExit 0 0 (fun _ => .ok [("x", false)]))).ui.exited = true ∧
     (step (step (initSys [("a", true)] true) (.key .enter))
        (.procExit 0 0 (fun _ => .ok [("x", false)]))).ui.branches = [("a", true)]) ∧
    ((initSys [("a", true)] false).ui.quit_on_switch = false ∧
     (step (step (initSys [("a", true)] false) (.key .enter))
        (.procExit 0 0 (fun _ => .ok [("x", false)]))).ui.branches = [("x", false)] ∧
     (step (step (initSys [("a", true)] false) (.key .enter))
        (.procExit 0 0 (fun _ => .ok [("x", false)]))).ui.status =
       "Switched. ↑/↓ to move • Enter to switch • Delete to delete") := by
  have ht := C7_switch_success (initSys [("a", true)] true)
    (fun _ => .ok [("x", false)]) [("x", false)] rfl rfl rfl rfl rfl rfl rfl
  have hf := C7_switch_success (initSys [("a", true)] false)
    (fun _ => .ok [("x", false)]) [("x", false)] rfl rfl rfl rfl rfl rfl rfl
  exact ⟨⟨rfl, (ht.1 rfl).1, (ht.1 rfl).2⟩, ⟨rfl, (hf.2 rfl).1, (hf.2 rfl).2.1⟩⟩

/-! ## Claim C10 -/

/-- C10: submitting a line in the focused input area while no process is
active, or after the handle has been cleared, clears the input buffer and
changes nothing else (no write to any process, no log echo, no failure);
when a process is active and its stdin is open, the text plus a newline
is written to that process's stdin and the line is echoed to the log as
"> text"; when the handle is set but stdin is closed, the line is still
echoed but nothing is written, so a write-plus-echo happens exactly when
a process is active with open stdin. -/
theorem C10_input_submit (sys : Sys)
    (hexit : sys.ui.exited = false)
    (hfoc : sys.ui.input_focused = true)
    (hforce : sys.ui.awaiting_force_branch = none) :
    ((sys.ui.processing = false ∨ sys.ui.proc = none) →
       step sys (.key .enter) = { sys with ui := { sys.ui with input_text := "" } }) ∧
    (∀ i p, sys.ui.processing = true → sys.ui.proc = some i →
       sys.procs[i]? = some p → p.stdinOpen = true →
       step sys (.key .enter) =
         { ui := { sys.ui with
                     input_text := "",
                     log := sys.ui.log ++ ["> " ++ sys.ui.input_text] },
           procs := sys.procs.set i
             { p with writes := p.writes ++ [sys.ui.input_text ++ "\n"] } }) ∧
    (∀ i p, sys.ui.processing = true → sys.ui.proc = some i →
       sys.procs[i]? = some p → p.stdinOpen = false →
       step sys (.key .enter) =
         { sys with ui := { sys.ui with
                              input_text := "",
                              log := sys.ui.log ++ ["> " ++ sys.ui.input_text] } }) := by
  refine ⟨?_, ?_, ?_⟩
  · intro hcase
    rcases hcase with hp | hp <;>
      simp [step, handle_key, enter_input, send_to_proc, appendLog, hexit, hfoc, hforce, hp]
  · intro i p hp hpr hget hopen
    simp [step, handle_key, enter_input, send_to_proc, appendLog, hexit, hfoc, hforce,
      hp, hpr, hget, hopen]
  · intro i p hp hpr hget hopen
    simp [step, handle_key, enter_input, send_to_proc, appendLog, hexit, hfoc, hforce,
      hp, hpr, hget, hopen]

theorem C10_input_submit_witness :
    ((run (initSys [("a", true)] false)
        [.key .delete, .key (.other 'h'), .key (.other 'i')]).ui.processing = true ∧
     (run (initSys [("a", true)] false)
        [.key .delete, .key (.other 'h'), .key (.other 'i')]).ui.input_focused = true) ∧
    (step (run (initSys [("a", true)] false)
        [.key .delete, .key (.other 'h'), .key (.other 'i')]) (.key .enter)).ui.log =
      ["$ git branch -d a", "> hi"] ∧
    ((step (run (initSys [("a", true)] false)
        [.key .delete, .key (.other 'h'), .key (.other 'i')]) (.key .enter)).procs.map
        (fun p => p.writes)) = [["hi\n"]] ∧
    (step (run (initSys [("a", true)] false)
        [.key .delete, .key (.other 'h'), .key (.other 'i')]) (.key .enter)).ui.input_text = "" ∧
    step { ui := { quit_on_switch := false, branches := [("a", true)], selected := 0,
                   processing := false, proc := none, status := "", awaiting_force_branch := none,
                   log := [], input_text := "abc", input_focused := true, exited := false },
           procs := [] } (.key .enter) =
      { ui := { quit_on_switch := false, branches := [("a", true)], selected := 0,
                processing := false, proc := none, status := "", awaiting_force_branch := none,
                log := [], input_text := "", input_focused := true, exited := false },
        procs := [] } := by
  have hA := (C10_input_submit (run (initSys [("a", true)] false)
      [.key .delete, .key (.other 'h'), .key (.other 'i')]) rfl rfl rfl).2.1 0
      { args := ["git", "branch", "-d", "a"], onSuccess := some .refreshBranches,
        onFailure := some (.forcePrompt "a"), refresh := true, exited := false,
        stdinOpen := true, writes := [] } rfl rfl (by decide) rfl
  have hI := (C10_input_submit
      { ui := { quit_on_switch := false, branches := [("a", true)], selected := 0,
                processing := false, proc := none, status := "",
                awaiting_force_branch := none, log := [], input_text := "abc",
                input_focused := true, exited := false },
        procs := [] } rfl rfl rfl).1 (Or.inl rfl)
  refine ⟨⟨rfl, rfl⟩, ?_, ?_, ?_, ?_⟩
  · rw [hA]
    decide
  · rw [hA]
    decide
  · rw [hA]
  · rw [hI]

end DirtyGit
